import Mathlib

/-!
Verification development for the multi-tenant Fastify server core
(`main.mjs`).  The JavaScript classes are shallowly embedded as Lean
definitions: pure string/path manipulation becomes pure functions,
filesystem access and dynamic module loading become explicit environment
records, and thrown exceptions become `Except` results.  Paths follow the
POSIX convention used by Node (`path.resolve`, `path.basename`,
`String.prototype.startsWith`), with the process working directory
modelled as the filesystem root `"/"` (every call site in the embedded
code passes absolute paths).
-/

/-- Characters split on `/`, modelling splitting a POSIX path string into
segments (empty segments arise from duplicate or trailing slashes). -/
def splitSlash : List Char → List (List Char)
  | [] => [[]]
  | c :: rest =>
    match splitSlash rest with
    | s :: ss => if c = '/' then [] :: s :: ss else (c :: s) :: ss
    | [] => if c = '/' then [[], []] else [[c]]

/-- Segment normalisation of an absolute path: drops empty and `.`
segments, pops on `..` (staying at the root when already there), as
`path.resolve` does for an absolute joined path. -/
def normSegs (segs : List (List Char)) : List (List Char) :=
  segs.foldl
    (fun acc s =>
      if s = [] ∨ s = ['.'] then acc
      else if s = ['.', '.'] then acc.dropLast
      else acc ++ [s]) []

/-- Rebuild a normalised absolute path from its segments. -/
def joinAbs (segs : List (List Char)) : String :=
  match segs with
  | [] => "/"
  | ss => String.mk (ss.foldl (fun acc s => acc ++ ('/' :: s)) [])

/-- Normalise an absolute path string (collapse `//`, resolve `.` and
`..`), modelling `path.resolve` applied to one absolute argument. -/
def normalizeAbs (p : String) : String :=
  joinAbs (normSegs (splitSlash p.data))

/-- Models `path.isAbsolute` for POSIX paths. -/
def isAbsolute (p : String) : Bool :=
  match p.data with
  | '/' :: _ => true
  | _ => false

/-- JavaScript `String.prototype.startsWith`. -/
def strStartsWith (s pre : String) : Bool :=
  pre.data.isPrefixOf s.data

/-- Models `path.resolve(base, rel)` for a non-absolute `rel`: join to the base
(itself resolved against the root working directory) and normalise. -/
def nodeResolve (base rel : String) : String :=
  normalizeAbs ("/" ++ base ++ "/" ++ rel)

/-- Models `path.resolve(p)` with a single argument, the working directory
being modelled as `"/"`. -/
def resolveOne (p : String) : String :=
  normalizeAbs (if isAbsolute p then p else "/" ++ p)

/-- Models `path.basename`: the last nonempty segment of the path. -/
def basename (p : String) : String :=
  (((splitSlash p.data).filter (fun s => s ≠ [])).getLast?.map String.mk).getD ""

/-- The anchored replace that strips the fixed package name lead
`"fastify-multitenant-"` when present (being anchored, at most the
leading occurrence is removed). -/
def stripMultitenant (s : String) : String :=
  if strStartsWith s "fastify-multitenant-" then
    String.mk (s.data.drop "fastify-multitenant-".length)
  else s

/-- The character class `[A-Za-z0-9_-]` accepted by the identifier
regular expression in `SecurityValidator`. -/
def isValidIdChar (c : Char) : Bool :=
  c.isAlpha || c.isDigit || c = '-' || c = '_'

/-- Embeds `SecurityValidator.validateTenantId` (main.mjs lines 20-30): rejects
the empty string, strips characters outside `[A-Za-z0-9_-]`, and fails
whenever the stripped result differs from the input or is empty;
otherwise returns the (unchanged) input.  A thrown `Error` is modelled
as `Except.error`. -/
def SecurityValidator.validateTenantId (tenantId : String) : Except String String :=
  if tenantId = "" then
    .error "Tenant ID must be a non-empty string"
  else
    let sanitized := String.mk (tenantId.data.filter isValidIdChar)
    if sanitized ≠ tenantId ∨ sanitized = "" then
      .error "Tenant ID contains invalid characters"
    else
      .ok sanitized

/-- Returns `true` exactly on `Except.error`, used to express that an embedded
operation throws. -/
def isErr {ε α : Type} : Except ε α → Bool
  | .error _ => true
  | .ok _ => false

/-- The `PathResolver` state (main.mjs lines 97-183): the resolved base
directory and the set of trusted package roots (modelled as a
duplicate-free list). -/
structure PathResolver where
  baseDir : String
  trustedPackagePaths : List String := []

/-- Embeds `PathResolver.addTrustedPath`: adds `path.resolve(packagePath)` to
the trusted set (`Set.add` never duplicates). -/
def PathResolver.addTrustedPath (pr : PathResolver) (packagePath : String) : PathResolver :=
  if pr.trustedPackagePaths.contains (resolveOne packagePath) then pr
  else { pr with trustedPackagePaths := pr.trustedPackagePaths ++ [resolveOne packagePath] }

/-- Embeds `PathResolver.isTrustedPath`: whether the resolved path starts with
some trusted root. -/
def PathResolver.isTrustedPath (pr : PathResolver) (filePath : String) : Bool :=
  pr.trustedPackagePaths.any (fun t => strStartsWith (resolveOne filePath) t)

/-- Embeds `PathResolver.resolvePath` (main.mjs lines 152-169): absolute inputs
are returned unchanged (both branches of the trusted check return the
input); relative inputs are resolved against `baseDir` and rejected when
the result neither starts with `baseDir` nor is trusted. -/
def PathResolver.resolvePath (pr : PathResolver) (relativePath : String)
    (allowTrusted : Bool := false) : Except String String :=
  if isAbsolute relativePath then
    if allowTrusted && pr.isTrustedPath relativePath then .ok relativePath
    else .ok relativePath
  else
    let resolved := nodeResolve pr.baseDir relativePath
    if ¬ strStartsWith resolved pr.baseDir ∧ ¬ pr.isTrustedPath resolved then
      .error ("Path traversal attempt detected: " ++ relativePath)
    else
      .ok resolved

/-- Modelled from the spec: "fails with PathTraversalRejected if the
result lies outside the base root".  A path lies under the base root
when it is the root itself or a descendant of it (path-separator-aware
containment), the comparison the claim is stated against. -/
def underBaseRootSpec (root p : String) : Bool :=
  p = root || strStartsWith p (root ++ "/")

/-- Untyped JavaScript values as they occur in tenant configurations:
`null`/`undefined` collapse to `null`, objects are ordered field lists
(JS objects preserve insertion order). -/
inductive JVal where
  | null
  | bool (b : Bool)
  | num (n : Int)
  | str (s : String)
  | arr (elems : List JVal)
  | obj (fields : List (String × JVal))

/-- JavaScript truthiness of a value (`undefined`/`null`, `false`, `0`,
and `""` are falsy; every array and object is truthy). -/
def jTruthy : JVal → Bool
  | .null => false
  | .bool b => b
  | .num n => n ≠ 0
  | .str s => s ≠ ""
  | .arr _ => true
  | .obj _ => true

/-- Property read `v[k]` on an object; `none` models `undefined` (also
for reads on non-objects, which no embedded call site performs). -/
def jGet : JVal → String → Option JVal
  | .obj fields, k => (fields.find? (fun kv => kv.1 = k)).map (fun kv => kv.2)
  | _, _ => none

/-- Property read defaulting to `null` (so truthiness of a missing key
is `false`, as for `undefined`). -/
def jGetD (v : JVal) (k : String) : JVal :=
  (jGet v k).getD .null

/-- Returns `true` exactly on the literal `false`, modelling the strict
comparison `=== false`. -/
def jIsFalse : JVal → Bool
  | .bool false => true
  | _ => false

/-- The string content of a value (`""` for non-strings). -/
def jStr : JVal → String
  | .str s => s
  | _ => ""

/-- Property write `v[k] = x`: replaces the field in place or appends
it; a no-op on non-objects (never reached by the embedded code). -/
def jSet (v : JVal) (k : String) (x : JVal) : JVal :=
  match v with
  | .obj fields =>
    if fields.any (fun kv => kv.1 = k) then
      .obj (fields.map (fun kv => if kv.1 = k then (k, x) else kv))
    else
      .obj (fields ++ [(k, x)])
  | other => other

mutual

/-- The `deepmerge` dependency with its default options: objects merge
recursively key by key, arrays concatenate, and any other source value
replaces the target. -/
def dmerge : JVal → JVal → JVal
  | .obj t, .obj s =>
    .obj (dmergeFields t s ++ s.filter (fun kv => (List.lookup kv.1 t).isNone))
  | .arr t, .arr s => .arr (t ++ s)
  | _, s => s
termination_by t _ => sizeOf t

/-- Target fields of a deep object merge: each keeps its position, its
value merged with the source value under the same key when one exists. -/
def dmergeFields : List (String × JVal) → List (String × JVal) → List (String × JVal)
  | [], _ => []
  | (k, v) :: rest, s =>
    (k, match List.lookup k s with
        | some sv => dmerge v sv
        | none => v) :: dmergeFields rest s
termination_by t _ => sizeOf t

end

/-- The filesystem primitives the loaders consume: `access` models a
successful `fs.access` probe, `listing` models reading a directory
(`none` when it does not exist), and `fileVal` the parsed/imported
content of a file (`none` when reading, parsing, or importing throws). -/
structure FileSys where
  access : String → Bool
  listing : String → Option (List String)
  fileVal : String → Option JVal

/-- Embeds `PathResolver.pathExists` (main.mjs lines 171-182): trusted probes
bypass `resolvePath`; otherwise a traversal rejection is caught and
reported as `false`. -/
def PathResolver.pathExists (fs : FileSys) (pr : PathResolver) (filePath : String)
    (allowTrusted : Bool := false) : Bool :=
  if allowTrusted then fs.access filePath
  else
    match pr.resolvePath filePath allowTrusted with
    | .ok resolvedPath => fs.access resolvedPath
    | .error _ => false

/-- The three file names matched by the fast-glob pattern
`config.{json,js,mjs}`, listed in path order. -/
def configFileNames : List String := ["config.js", "config.json", "config.mjs"]

/-- Models the `fast-glob` call of `ResourceLoader.loadConfig`: the
config files present in the directory, as absolute paths in
deterministic sorted order (a missing directory yields no matches). -/
def fastGlobConfig (fs : FileSys) (dir : String) : List String :=
  match fs.listing dir with
  | none => []
  | some entries =>
    (configFileNames.filter (fun n => entries.contains n)).map (fun n => dir ++ "/" ++ n)

/-- The path `ResourceLoader.loadConfig` reads from: the raw path when
the caller marks it trusted, otherwise `resolvePath` (whose exception
propagates to the surrounding catch). -/
def resolveCfgPath (pr : PathResolver) (configPath : String) (trusted : Bool) :
    Except String String :=
  if trusted then .ok configPath else pr.resolvePath configPath false

/-- Embeds `ResourceLoader.loadConfig` (main.mjs lines 528-567): reads the
directory's config files and deep-merges each into the defaults in
order; a directory without config files returns the defaults; a file
that fails to parse or import is skipped; any error while resolving the
path is caught and the defaults returned. -/
def ResourceLoader.loadConfig (fs : FileSys) (pr : PathResolver) (configPath : String)
    (defaults : JVal) (trusted : Bool := false) : JVal :=
  match resolveCfgPath pr configPath trusted with
  | .error _ => defaults
  | .ok absolutePath =>
    match fastGlobConfig fs absolutePath with
    | [] => defaults
    | configFiles =>
      configFiles.foldl
        (fun config file =>
          match fs.fileVal file with
          | some v => dmerge config v
          | none => config) defaults

/-- Result of `PathResolver.getModuleInfo` for a resolvable package:
its module root directory (added to the trusted set) and the parsed
`package.json`. -/
structure ModuleInfo where
  rootDir : String
  packageJson : JVal := .obj []

/-- The primary export of an NPM tenant package as observed by the
adapter: whether it is a callable plugin, and its `NAME` and `config`
properties (`null` when absent). -/
structure NpmModule where
  isFunction : Bool := false
  NAME : JVal := .null
  config : JVal := .null

/-- The two tenant adapters, in the fixed probe order of
`TenantFactory.adapters`. -/
inductive AdapterTag where
  | localT
  | npmT
deriving DecidableEq

/-- Outcome of `adapter.loadResources`: the resource names recorded on
the context on success, or the error rethrown to `buildTenant`. -/
inductive ResOutcome where
  | ok (services plugins routes schemas : List String)
  | err (msg : String)

/-- The ambient environment of one build: filesystem, module resolution
(`getModuleInfo`, `none` when it throws), dynamic import of a package's
main module (`none` when it throws), and the outcome of
`adapter.loadResources` for a context with the given adapter, id, and
config.  `loadResources` only appends to the context's resource
collections (it never touches `id`, `config`, or `active`), so its
filesystem walk is abstracted into this single outcome. -/
structure Env where
  fs : FileSys
  modules : String → Option ModuleInfo
  mainExport : String → Option NpmModule
  loadRes : AdapterTag → String → JVal → ResOutcome

/-- Embeds `NPMTenantAdapter.loadConfig` (main.mjs lines 768-813): resolves the
package (marking its root trusted), merges the exported `config`
sub-object when the export is a non-function object, records
`path`/`packageName`/`packageJson`/`isTrustedPath`, derives `name` from
the exported `NAME` or the prefix-stripped package name, then merges any
config files found in the package root; a resolution or import failure
is caught and yields the defaults with `path: null` and the error
message. -/
def npmLoadConfig (env : Env) (pr : PathResolver) (packageName : String)
    (defaults : JVal) : JVal × PathResolver :=
  match env.modules packageName with
  | none => (jSet (jSet defaults "path" .null) "error" (.str "module resolution failed"), pr)
  | some moduleInfo =>
    let pr2 := pr.addTrustedPath moduleInfo.rootDir
    match env.mainExport packageName with
    | none => (jSet (jSet defaults "path" .null) "error" (.str "import failed"), pr2)
    | some m =>
      let config0 :=
        if ¬ m.isFunction ∧ jTruthy m.config then dmerge defaults m.config else defaults
      let config1 := jSet config0 "path" (.str moduleInfo.rootDir)
      let config2 := jSet config1 "packageName" (.str packageName)
      let config3 := jSet config2 "packageJson" moduleInfo.packageJson
      let config4 := jSet config3 "isTrustedPath" (.bool true)
      let config5 :=
        if jTruthy m.NAME then jSet config4 "name" m.NAME
        else jSet config4 "name" (.str (stripMultitenant packageName))
      (dmerge config5 (ResourceLoader.loadConfig env.fs pr2 moduleInfo.rootDir (.obj []) true),
        pr2)

/-- The `adapter.loadConfig` call dispatched on the adapter: the local adapter
delegates to `ResourceLoader.loadConfig` on the tenant directory. -/
def adapterLoadConfig (env : Env) (pr : PathResolver) (adapter : AdapterTag)
    (source : String) (defaults : JVal) : JVal × PathResolver :=
  match adapter with
  | .localT => (ResourceLoader.loadConfig env.fs pr source defaults false, pr)
  | .npmT => npmLoadConfig env pr source defaults

/-- The validation performed by the `TenantContext` constructor on the
value `config.name || tenantId`: non-strings fail the `typeof` check of
`SecurityValidator.validateTenantId`, strings are validated as tenant
identifiers. -/
def validateTenantIdJ : JVal → Except String String
  | .str s => SecurityValidator.validateTenantId s
  | _ => .error "Tenant ID must be a non-empty string"

/-- JavaScript `a || b` for an optional string `a` (the empty string is
falsy). -/
def jsOrStr (a : Option String) (b : String) : String :=
  match a with
  | some s => if s = "" then b else s
  | none => b

/-- JavaScript `a || b` on values. -/
def jsOrJ (a b : JVal) : JVal :=
  if jTruthy a then a else b

/-- The `TenantContext` after a successful build (main.mjs lines 573-616):
the validated id, the merged config, the adapter type tag, the
`active` flag computed as `config.active !== false`, and the resource
names added by `loadResources`. -/
structure TenantCtx where
  id : String
  config : JVal
  type : AdapterTag
  active : Bool
  services : List String := []
  plugins : List String := []
  routes : List String := []
  schemas : List String := []

/-- The tenant id determined at the top of `TenantFactory.buildTenant`
(main.mjs lines 979-990): the explicit id when truthy, else the
prefix-stripped package name for the NPM adapter, else the source
basename. -/
def effTenantId (adapter : AdapterTag) (source : String) (customTenantId : Option String) :
    String :=
  jsOrStr customTenantId
    (match adapter with
     | .npmT => stripMultitenant source
     | .localT => basename source)

/-- The defaults `buildTenant` passes to `adapter.loadConfig`:
`{ id, name: id, active: true, source }`. -/
def mkDefaults (tenantId source : String) : JVal :=
  .obj [("id", .str tenantId), ("name", .str tenantId), ("active", .bool true),
        ("source", .str source)]

/-- The merged configuration `buildTenant` obtains for a source, as a
function of the build inputs (first component of `adapterLoadConfig` on
the defaults for the determined tenant id). -/
def mergedCfg (env : Env) (pr : PathResolver) (adapter : AdapterTag) (source : String)
    (customTenantId : Option String) : JVal :=
  (adapterLoadConfig env pr adapter source
      (mkDefaults (effTenantId adapter source customTenantId) source)).1

/-- The tail of `TenantFactory.buildTenant` after the configuration is
loaded (main.mjs lines 1000-1023): an inactive config is skipped with
`null`; the `TenantContext` constructor validates `config.name ||
tenantId` as the context id; a validation or resource-loading error is
caught and surfaced as `null`. -/
def buildFromConfig (env : Env) (adapter : AdapterTag) (tenantId : String) (config : JVal) :
    Option TenantCtx :=
  if ¬ jTruthy (jGetD config "active") then none
  else
    match validateTenantIdJ (jsOrJ (jGetD config "name") (.str tenantId)) with
    | .error _ => none
    | .ok vid =>
      match env.loadRes adapter vid config with
      | .err _ => none
      | .ok ss ps rs scs =>
        some { id := vid, config := config, type := adapter,
               active := ¬ jIsFalse (jGetD config "active"),
               services := ss, plugins := ps, routes := rs, schemas := scs }

/-- Embeds `TenantFactory.buildTenant` (main.mjs lines 977-1024): determines
the tenant id, loads the merged configuration through the adapter
(threading the trusted-root state), and finishes with
`buildFromConfig`. -/
def TenantFactory.buildTenant (env : Env) (pr : PathResolver) (source : String)
    (adapter : AdapterTag) (customTenantId : Option String) :
    Option TenantCtx × PathResolver :=
  match adapterLoadConfig env pr adapter source
      (mkDefaults (effTenantId adapter source customTenantId) source) with
  | (config, pr2) => (buildFromConfig env adapter (effTenantId adapter source customTenantId) config, pr2)

/-- Embeds `TenantFactory.createTenant` (main.mjs lines 966-975): probes the
adapters in order (local existence check first, then NPM resolution,
which marks the package root trusted) and builds with the first that
can handle the source; throws `NoAdapterFound` when neither can. -/
def TenantFactory.createTenant (env : Env) (pr : PathResolver) (source : String)
    (customTenantId : Option String) : Except String (Option TenantCtx) × PathResolver :=
  if PathResolver.pathExists env.fs pr source false then
    match TenantFactory.buildTenant env pr source .localT customTenantId with
    | (t, pr2) => (.ok t, pr2)
  else
    match env.modules source with
    | some moduleInfo =>
      match TenantFactory.buildTenant env (pr.addTrustedPath moduleInfo.rootDir) source .npmT
          customTenantId with
      | (t, pr2) => (.ok t, pr2)
    | none => (.error ("No adapter found for tenant source: " ++ source), pr)

/-- The adapter `createTenant` selects for a source, if any. -/
def selectedAdapter (env : Env) (pr : PathResolver) (source : String) : Option AdapterTag :=
  if PathResolver.pathExists env.fs pr source false then some .localT
  else if (env.modules source).isSome then some .npmT
  else none

/-- The resolver state in effect when the selected adapter loads its
configuration (the NPM probe has already marked the package root
trusted by then). -/
def resolverAfterProbe (env : Env) (pr : PathResolver) (source : String) : PathResolver :=
  if PathResolver.pathExists env.fs pr source false then pr
  else
    match env.modules source with
    | some moduleInfo => pr.addTrustedPath moduleInfo.rootDir
    | none => pr

/-- An inbound request as observed by the identification strategy:
`hostname` and `url` may be absent, `xTenantId` is the value of the
`x-tenant-id` header when present. -/
structure Request where
  hostname : Option String := none
  url : Option String := none
  xTenantId : Option String := none

/-- The first capture of the anchored hostname pattern: one or more
non-dot characters followed by a dot. -/
def hostnameSub (hostname : String) : Option String :=
  match hostname.data.takeWhile (fun c => c ≠ '.') with
  | [] => none
  | pre => if pre.length < hostname.data.length then some (String.mk pre) else none

/-- The first capture of the anchored URL pattern: a leading slash
followed by one or more non-slash characters. -/
def urlSeg (url : String) : Option String :=
  match url.data with
  | '/' :: rest =>
    match rest.takeWhile (fun c => c ≠ '/') with
    | [] => none
    | seg => some (String.mk seg)
  | _ => none

/-- The header step of `MultiSourceTenantStrategy.extractTenantId`: a
truthy `x-tenant-id` header is validated, anything else falls through to
the fixed default id; a validation throw is caught by the surrounding
try and also yields the default. -/
def extractHeaderStep (request : Request) : String :=
  match request.xTenantId with
  | some hv =>
    if hv ≠ "" then
      match SecurityValidator.validateTenantId hv with
      | .ok v => v
      | .error _ => "default-tenant"
    else "default-tenant"
  | none => "default-tenant"

/-- Embeds `MultiSourceTenantStrategy.extractTenantId` (main.mjs lines
1040-1065): hostname subdomain first, then the first URL path segment
unless it is the reserved `api` or `health`, then the `x-tenant-id`
header; each candidate is validated, a throw anywhere lands in the
catch and returns the fixed `"default-tenant"`. -/
def MultiSourceTenantStrategy.extractTenantId (request : Request) : String :=
  match request.hostname.bind hostnameSub with
  | some sub =>
    (match SecurityValidator.validateTenantId sub with
     | .ok v => v
     | .error _ => "default-tenant")
  | none =>
    match request.url.bind urlSeg with
    | some seg =>
      if seg ≠ "api" ∧ seg ≠ "health" then
        match SecurityValidator.validateTenantId seg with
        | .ok v => v
        | .error _ => "default-tenant"
      else extractHeaderStep request
    | none => extractHeaderStep request

/-- Lookup in the registry's insertion-ordered map. -/
def mapGet (l : List (String × TenantCtx)) (k : String) : Option TenantCtx :=
  (l.find? (fun kv => kv.1 = k)).map (fun kv => kv.2)

/-- Embeds `Map.prototype.set`: replaces the entry in place when the key is
present (keeping its insertion position), otherwise appends. -/
def mapSet (l : List (String × TenantCtx)) (k : String) (v : TenantCtx) :
    List (String × TenantCtx) :=
  if l.any (fun kv => kv.1 = k) then
    l.map (fun kv => if kv.1 = k then (k, v) else kv)
  else l ++ [(k, v)]

/-- Embeds `Map.prototype.delete`. -/
def mapDelete (l : List (String × TenantCtx)) (k : String) : List (String × TenantCtx) :=
  l.filter (fun kv => kv.1 ≠ k)

/-- The `TenantRegistry` state (main.mjs lines 1071-1140): the id-to-context map
and the capacity bound. -/
structure TenantRegistry where
  tenants : List (String × TenantCtx)
  maxTenants : Nat := 50

/-- Embeds `TenantRegistry.register` (main.mjs lines 1086-1093): throws
`CapacityExceeded` when the map already holds `maxTenants` entries
(leaving it untouched — the error escapes before any mutation),
otherwise inserts by id, overwriting an existing entry. -/
def TenantRegistry.register (reg : TenantRegistry) (tenant : TenantCtx) :
    Except String TenantRegistry :=
  if reg.tenants.length ≥ reg.maxTenants then
    .error "Maximum number of tenants reached"
  else
    .ok { reg with tenants := mapSet reg.tenants tenant.id tenant }

/-- Embeds `TenantRegistry.unregister`: idempotent delete returning whether an
entry existed. -/
def TenantRegistry.unregister (reg : TenantRegistry) (tenantId : String) :
    Bool × TenantRegistry :=
  ((mapGet reg.tenants tenantId).isSome,
    { reg with tenants := mapDelete reg.tenants tenantId })

/-- Embeds `TenantRegistry.getTenant`. -/
def TenantRegistry.getTenant (reg : TenantRegistry) (tenantId : String) : Option TenantCtx :=
  mapGet reg.tenants tenantId

/-- One registry operation of a register/unregister history. -/
inductive RegOp where
  | register (t : TenantCtx)
  | unregister (id : String)

/-- Applying one operation: a thrown `CapacityExceeded` leaves the
registry as it was. -/
def applyRegOp (reg : TenantRegistry) : RegOp → TenantRegistry
  | .register t =>
    match reg.register t with
    | .ok reg2 => reg2
    | .error _ => reg
  | .unregister id => (reg.unregister id).2

/-- Running a history of operations from the empty registry with the
given capacity. -/
def runRegOps (maxTenants : Nat) (ops : List RegOp) : TenantRegistry :=
  ops.foldl applyRegOp { tenants := [], maxTenants := maxTenants }

/-- The mutable state `TenantManager` operations thread: the path
resolver (trusted roots) and the registry. -/
structure MState where
  pr : PathResolver
  reg : TenantRegistry

/-- Embeds `TenantManager.loadTenant` (main.mjs lines 1179-1197): build via the
factory and register the result; a `null` build, a `NoAdapterFound`
throw, or a `CapacityExceeded` throw during registration are all caught
and surface as `null` with the registry unchanged. -/
def TenantManager.loadTenant (env : Env) (st : MState) (source : String)
    (customTenantId : Option String) : Option TenantCtx × MState :=
  match TenantFactory.createTenant env st.pr source customTenantId with
  | (.error _, pr2) => (none, { pr := pr2, reg := st.reg })
  | (.ok none, pr2) => (none, { pr := pr2, reg := st.reg })
  | (.ok (some tenant), pr2) =>
    match st.reg.register tenant with
    | .error _ => (none, { pr := pr2, reg := st.reg })
    | .ok reg2 => (some tenant, { pr := pr2, reg := reg2 })

/-- Embeds `TenantManager.reloadTenant` (main.mjs lines 1291-1305): throws
`TenantNotFound` when the id is absent; otherwise takes the recorded
`config.source`, unregisters the old entry, and reloads with the old id
passed as the explicit id. -/
def TenantManager.reloadTenant (env : Env) (st : MState) (tenantId : String) :
    Except String (Option TenantCtx × MState) :=
  match st.reg.getTenant tenantId with
  | none => .error ("Tenant " ++ tenantId ++ " not found")
  | some existingTenant =>
    .ok (TenantManager.loadTenant env
      { pr := st.pr, reg := (st.reg.unregister tenantId).2 }
      (jStr (jGetD existingTenant.config "source")) (some tenantId))

/-! Infrastructure lemmas shared by the claim theorems. -/

theorem validateTenantId_ok_iff (id : String) :
    SecurityValidator.validateTenantId id = .ok id ↔ (id ≠ "" ∧ id.data.all isValidIdChar) := by
  unfold SecurityValidator.validateTenantId
  by_cases h0 : id = ""
  · simp [h0]
  · have hmk : ∀ l : List Char, (String.mk l = id) ↔ (l = id.data) := by
      intro l
      cases id
      constructor
      · intro h
        cases h
        rfl
      · intro h
        cases h
        rfl
    by_cases hall : id.data.all isValidIdChar
    · have hfix : String.mk (id.data.filter isValidIdChar) = id := by
        rw [hmk]
        exact List.filter_eq_self.mpr (by simpa [List.all_eq_true] using hall)
      simp [h0, hfix, hall]
    · have hne : String.mk (id.data.filter isValidIdChar) ≠ id := by
        rw [Ne, hmk]
        intro h
        exact hall (by simpa [List.all_eq_true] using List.filter_eq_self.mp h)
      simp [h0, hne, hall]

theorem validateTenantId_ok_shape (id v : String)
    (h : SecurityValidator.validateTenantId id = .ok v) : v = id := by
  unfold SecurityValidator.validateTenantId at h
  by_cases h0 : id = ""
  · simp [h0] at h
  · simp only [h0, if_false] at h
    split at h
    · cases h
    · rename_i hcond
      cases h
      rcases not_or.mp hcond with ⟨hne, _⟩
      exact not_not.mp hne

theorem validateTenantId_err_iff (id : String) :
    isErr (SecurityValidator.validateTenantId id) = true ↔
      ¬ (id ≠ "" ∧ id.data.all isValidIdChar) := by
  constructor
  · intro h hvalid
    rw [(validateTenantId_ok_iff id).mpr hvalid] at h
    simp [isErr] at h
  · intro h
    rcases hv : SecurityValidator.validateTenantId id with e | v
    · simp [isErr]
    · exact absurd ((validateTenantId_ok_iff id).mp (validateTenantId_ok_shape id v hv ▸ hv)) h

theorem buildTenant_eq (env : Env) (pr : PathResolver) (source : String)
    (a : AdapterTag) (cid : Option String) :
    TenantFactory.buildTenant env pr source a cid =
      (buildFromConfig env a (effTenantId a source cid) (mergedCfg env pr a source cid),
        (adapterLoadConfig env pr a source (mkDefaults (effTenantId a source cid) source)).2) := by
  unfold TenantFactory.buildTenant mergedCfg
  rcases adapterLoadConfig env pr a source (mkDefaults (effTenantId a source cid) source) with
    ⟨config, pr2⟩
  rfl

theorem createTenant_eq (env : Env) (pr : PathResolver) (source : String)
    (cid : Option String) :
    TenantFactory.createTenant env pr source cid =
      match selectedAdapter env pr source with
      | some a =>
        ((.ok (TenantFactory.buildTenant env (resolverAfterProbe env pr source) source a cid).1),
          (TenantFactory.buildTenant env (resolverAfterProbe env pr source) source a cid).2)
      | none => (.error ("No adapter found for tenant source: " ++ source), pr) := by
  unfold TenantFactory.createTenant selectedAdapter resolverAfterProbe
  by_cases hpe : PathResolver.pathExists env.fs pr source false
  · rcases hb : TenantFactory.buildTenant env pr source .localT cid with ⟨t, pr2⟩
    simp [hpe, hb]
  · rcases hm : env.modules source with _ | moduleInfo
    · simp [hpe, hm]
    · rcases hb : TenantFactory.buildTenant env (pr.addTrustedPath moduleInfo.rootDir) source
          .npmT cid with ⟨t, pr2⟩
      simp [hpe, hm, hb]

theorem loadTenant_decomp (env : Env) (st : MState) (source : String)
    (cid : Option String) (a : AdapterTag)
    (h : selectedAdapter env st.pr source = some a) :
    TenantManager.loadTenant env st source cid =
      (match buildFromConfig env a (effTenantId a source cid)
          (mergedCfg env (resolverAfterProbe env st.pr source) a source cid) with
       | none =>
         (none, { pr := (TenantFactory.buildTenant env (resolverAfterProbe env st.pr source)
                    source a cid).2, reg := st.reg })
       | some t =>
         match st.reg.register t with
         | .error _ =>
           (none, { pr := (TenantFactory.buildTenant env (resolverAfterProbe env st.pr source)
                      source a cid).2, reg := st.reg })
         | .ok reg2 =>
           (some t, { pr := (TenantFactory.buildTenant env (resolverAfterProbe env st.pr source)
                        source a cid).2, reg := reg2 })) := by
  unfold TenantManager.loadTenant
  rw [createTenant_eq, h]
  rw [buildTenant_eq]
  rcases hb : buildFromConfig env a (effTenantId a source cid)
      (mergedCfg env (resolverAfterProbe env st.pr source) a source cid) with _ | t
  · simp [buildTenant_eq, hb]
  · simp [buildTenant_eq, hb]

theorem buildFromConfig_none_of_inactive (env : Env) (a : AdapterTag) (tid : String)
    (config : JVal) (h : jTruthy (jGetD config "active") = false) :
    buildFromConfig env a tid config = none := by
  unfold buildFromConfig
  simp [h]

theorem buildFromConfig_none_of_invalid (env : Env) (a : AdapterTag) (tid : String)
    (config : JVal)
    (h : isErr (validateTenantIdJ (jsOrJ (jGetD config "name") (.str tid))) = true) :
    buildFromConfig env a tid config = none := by
  unfold buildFromConfig
  by_cases ha : jTruthy (jGetD config "active")
  · rcases hv : validateTenantIdJ (jsOrJ (jGetD config "name") (.str tid)) with e | v
    · simp [ha, hv]
    · rw [hv] at h
      simp [isErr] at h
  · simp [ha]

theorem mapGet_map_replace (l : List (String × TenantCtx)) (k : String) (v : TenantCtx) :
    mapGet (l.map (fun kv => if kv.1 = k then (k, v) else kv)) k =
      if l.any (fun kv => kv.1 = k) then some v else none := by
  induction l with
  | nil => simp [mapGet]
  | cons hd tl ih =>
    by_cases hk : hd.1 = k
    · simp [mapGet, hk, List.find?]
    · simp only [List.map_cons, if_neg hk, List.any_cons]
      rw [show mapGet (hd :: tl.map (fun kv => if kv.1 = k then (k, v) else kv)) k =
          mapGet (tl.map (fun kv => if kv.1 = k then (k, v) else kv)) k from by
        simp [mapGet, List.find?, hk]]
      rw [ih]
      simp only [decide_eq_false hk, Bool.false_or]

theorem mapGet_mapSet_self (l : List (String × TenantCtx)) (k : String) (v : TenantCtx) :
    mapGet (mapSet l k v) k = some v := by
  unfold mapSet
  by_cases hany : l.any (fun kv => kv.1 = k)
  · rw [if_pos hany, mapGet_map_replace, if_pos hany]
  · rw [if_neg hany]
    have hnone : l.find? (fun kv => decide (kv.1 = k)) = none := by
      rw [List.find?_eq_none]
      intro x hx
      simp only [List.any_eq_true] at hany
      simp only [decide_eq_true_eq]
      exact fun hxk => hany ⟨x, hx, by simp [hxk]⟩
    simp [mapGet, List.find?_append, hnone, List.find?]

theorem mapSet_length_le (l : List (String × TenantCtx)) (k : String) (v : TenantCtx) :
    (mapSet l k v).length ≤ l.length + 1 := by
  unfold mapSet
  split
  · simp
  · simp

theorem loadTenant_none_reg (env : Env) (st : MState) (source : String)
    (cid : Option String) (h : (TenantManager.loadTenant env st source cid).1 = none) :
    ((TenantManager.loadTenant env st source cid).2).reg = st.reg := by
  unfold TenantManager.loadTenant at h ⊢
  rcases hc : TenantFactory.createTenant env st.pr source cid with ⟨r, pr2⟩
  rcases r with e | t
  · simp [hc]
  · rcases t with _ | tenant
    · simp [hc]
    · rcases hr : st.reg.register tenant with e | reg2
      · simp [hc, hr]
      · simp [hc, hr] at h

theorem loadTenant_some_reg (env : Env) (st : MState) (source : String)
    (cid : Option String) (t : TenantCtx) (st2 : MState)
    (h : TenantManager.loadTenant env st source cid = (some t, st2)) :
    st2.reg = { st.reg with tenants := mapSet st.reg.tenants t.id t } := by
  unfold TenantManager.loadTenant at h
  rcases hc : TenantFactory.createTenant env st.pr source cid with ⟨r, pr2⟩
  rw [hc] at h
  rcases r with e | tb
  · simp at h
  · rcases tb with _ | tenant
    · simp at h
    · rcases hr : st.reg.register tenant with e | reg2
      · simp [hr] at h
      · simp only [hr] at h
        injection h with h1 h2
        injection h1 with h1
        unfold TenantRegistry.register at hr
        split at hr
        · cases hr
        · injection hr with hr
          subst h1
          subst h2
          rw [← hr]

theorem loadTenant_some_lookup (env : Env) (st : MState) (source : String)
    (cid : Option String) (t : TenantCtx) (st2 : MState)
    (h : TenantManager.loadTenant env st source cid = (some t, st2)) :
    mapGet st2.reg.tenants t.id = some t := by
  rw [loadTenant_some_reg env st source cid t st2 h]
  exact mapGet_mapSet_self st.reg.tenants t.id t

theorem buildFromConfig_some_id (env : Env) (a : AdapterTag) (tid : String)
    (config : JVal) (t : TenantCtx) (h : buildFromConfig env a tid config = some t) :
    validateTenantIdJ (jsOrJ (jGetD config "name") (.str tid)) = .ok t.id := by
  unfold buildFromConfig at h
  split at h
  · cases h
  · split at h
    · cases h
    · rename_i vid hv
      split at h
      · cases h
      · cases h
        exact hv

theorem register_ok_shape (reg : TenantRegistry) (t : TenantCtx) (reg2 : TenantRegistry)
    (h : reg.register t = .ok reg2) :
    reg.tenants.length < reg.maxTenants ∧
      reg2 = { reg with tenants := mapSet reg.tenants t.id t } := by
  unfold TenantRegistry.register at h
  split at h
  · cases h
  · rename_i hlt
    injection h with h
    exact ⟨Nat.lt_of_not_le (fun hle => hlt (by omega)), h.symm⟩

theorem applyRegOp_maxTenants (reg : TenantRegistry) (op : RegOp) :
    (applyRegOp reg op).maxTenants = reg.maxTenants := by
  cases op with
  | register t =>
    rcases hr : reg.register t with e | reg2
    · simp [applyRegOp, hr]
    · rcases register_ok_shape reg t reg2 hr with ⟨_, h2⟩
      simp [applyRegOp, hr, h2]
  | unregister id => simp [applyRegOp, TenantRegistry.unregister]

theorem applyRegOp_bound (reg : TenantRegistry) (op : RegOp)
    (h : reg.tenants.length ≤ reg.maxTenants) :
    (applyRegOp reg op).tenants.length ≤ reg.maxTenants := by
  cases op with
  | register t =>
    rcases hr : reg.register t with e | reg2
    · simpa [applyRegOp, hr] using h
    · rcases register_ok_shape reg t reg2 hr with ⟨hlt, h2⟩
      have hm := mapSet_length_le reg.tenants t.id t
      simp only [applyRegOp, hr, h2]
      omega
  | unregister id =>
    have h1 : (mapDelete reg.tenants id).length ≤ reg.tenants.length :=
      List.length_filter_le _ _
    simpa [applyRegOp, TenantRegistry.unregister] using le_trans h1 h

theorem foldl_applyRegOp_maxTenants (ops : List RegOp) (reg : TenantRegistry) :
    (ops.foldl applyRegOp reg).maxTenants = reg.maxTenants := by
  induction ops generalizing reg with
  | nil => rfl
  | cons op rest ih => rw [List.foldl_cons, ih, applyRegOp_maxTenants]

theorem foldl_applyRegOp_bound (ops : List RegOp) (reg : TenantRegistry)
    (h : reg.tenants.length ≤ reg.maxTenants) :
    (ops.foldl applyRegOp reg).tenants.length ≤ reg.maxTenants := by
  induction ops generalizing reg with
  | nil => exact h
  | cons op rest ih =>
    rw [List.foldl_cons]
    have hstep := applyRegOp_bound reg op h
    rw [← applyRegOp_maxTenants reg op] at hstep
    have := ih (applyRegOp reg op) hstep
    rwa [applyRegOp_maxTenants reg op] at this

/-! Claim theorems. -/

/-- C1 (code bug): the claim states that `resolvePath` raises exactly
when the resolved result lies outside the base root and outside every
trusted root, and the code's own comment says the check ensures the
resolved path is within `baseDir`; but the implementation compares with
a plain string prefix, so with base root `/base` the relative input
`../basement/secret` resolves to `/basement/secret` — outside the
`/base` subtree, with no trusted roots — and is returned without any
error. -/
theorem c1_traversal_prefix_bug :
    PathResolver.resolvePath { baseDir := "/base", trustedPackagePaths := [] }
        "../basement/secret" false = .ok "/basement/secret" ∧
    underBaseRootSpec "/base" "/basement/secret" = false ∧
    PathResolver.isTrustedPath { baseDir := "/base", trustedPackagePaths := [] }
        "/basement/secret" = false := by
  refine ⟨rfl, by decide, by decide⟩

/-- C2: `TenantRegistry.register` throws CapacityExceeded whenever the
map already holds `maxTenants` entries (the pure model returns the old
registry to the caller unchanged in that case); below capacity it
inserts by id with last-register-wins overwrite; and every
register/unregister history from the empty registry keeps the size
within the configured bound. -/
theorem c2_register_capacity_and_bound :
    ∀ (reg : TenantRegistry) (t : TenantCtx),
      (reg.tenants.length ≥ reg.maxTenants →
        reg.register t = .error "Maximum number of tenants reached") ∧
      (reg.tenants.length < reg.maxTenants →
        reg.register t = .ok { reg with tenants := mapSet reg.tenants t.id t } ∧
        mapGet (mapSet reg.tenants t.id t) t.id = some t) ∧
      (∀ (maxTenants : Nat) (ops : List RegOp),
        (runRegOps maxTenants ops).tenants.length ≤ maxTenants) := by
  intro reg t
  refine ⟨?_, ?_, ?_⟩
  · intro h
    unfold TenantRegistry.register
    rw [if_pos h]
  · intro h
    constructor
    · unfold TenantRegistry.register
      rw [if_neg (by omega)]
    · exact mapGet_mapSet_self reg.tenants t.id t
  · intro maxTenants ops
    exact foldl_applyRegOp_bound ops { tenants := [], maxTenants := maxTenants } (by simp)

/-- A minimal concrete tenant context used by witnesses. -/
def sampleCtx : TenantCtx :=
  { id := "a", config := .obj [], type := .localT, active := true }

/-- Witness for C2 at concrete registries: a full registry of capacity 1
rejects a registration, the empty one accepts it, and a two-registration
history against capacity 1 stays within the bound. -/
theorem c2_witness :
    ({ tenants := [("a", sampleCtx)], maxTenants := 1 } : TenantRegistry).tenants.length ≥ 1 ∧
    TenantRegistry.register { tenants := [("a", sampleCtx)], maxTenants := 1 } sampleCtx =
      .error "Maximum number of tenants reached" ∧
    TenantRegistry.register { tenants := [], maxTenants := 1 } sampleCtx =
      .ok { tenants := [("a", sampleCtx)], maxTenants := 1 } ∧
    (runRegOps 1 [RegOp.register sampleCtx, RegOp.register sampleCtx]).tenants.length ≤ 1 := by
  have h := c2_register_capacity_and_bound { tenants := [("a", sampleCtx)], maxTenants := 1 }
    sampleCtx
  have h2 := c2_register_capacity_and_bound { tenants := [], maxTenants := 1 } sampleCtx
  refine ⟨by decide, h.1 (by decide), ?_, h.2.2 1 [RegOp.register sampleCtx,
    RegOp.register sampleCtx]⟩
  have := (h2.2.1 (by decide)).1
  exact this

/-- C3: `validateTenantId` returns its input unchanged exactly when it
is a nonempty string over `[A-Za-z0-9_-]` and throws otherwise; and
when the id the `TenantContext` constructor validates is rejected, the
tenant load yields `null` and the registry is not mutated. -/
theorem c3_validate_tenant_id :
    ∀ (id : String),
      (SecurityValidator.validateTenantId id = .ok id ↔
        (id ≠ "" ∧ id.data.all isValidIdChar)) ∧
      (¬ (id ≠ "" ∧ id.data.all isValidIdChar) →
        isErr (SecurityValidator.validateTenantId id) = true) ∧
      (∀ (env : Env) (st : MState) (source : String) (cid : Option String) (a : AdapterTag),
        selectedAdapter env st.pr source = some a →
        isErr (validateTenantIdJ (jsOrJ
          (jGetD (mergedCfg env (resolverAfterProbe env st.pr source) a source cid) "name")
          (.str (effTenantId a source cid)))) = true →
        (TenantManager.loadTenant env st source cid).1 = none ∧
        ((TenantManager.loadTenant env st source cid).2).reg = st.reg) := by
  intro id
  refine ⟨validateTenantId_ok_iff id, fun h => (validateTenantId_err_iff id).mpr h, ?_⟩
  intro env st source cid a hsel hval
  have hb := buildFromConfig_none_of_invalid env a (effTenantId a source cid)
    (mergedCfg env (resolverAfterProbe env st.pr source) a source cid) hval
  have hdec := loadTenant_decomp env st source cid a hsel
  constructor
  · rw [hdec]
    simp [hb]
  · apply loadTenant_none_reg
    rw [hdec]
    simp [hb]

/-- Environment for the C3 witness: a local tenant directory whose
basename contains a character outside the identifier class, no config
files, and resource loading that would succeed. -/
def envC3 : Env :=
  { fs :=
      { access := fun p => p = "/app/tenants/bad!dir"
        listing := fun _ => some []
        fileVal := fun _ => none }
    modules := fun _ => none
    mainExport := fun _ => none
    loadRes := fun _ _ _ => .ok [] [] [] [] }

/-- Manager state for the C3 witness: one registered tenant, capacity
50. -/
def stC3 : MState :=
  { pr := { baseDir := "/app", trustedPackagePaths := [] }
    reg := { tenants := [("a", sampleCtx)], maxTenants := 50 } }

/-- Witness for C3: `tenant_1` validates to itself, `bad id!` throws,
and loading the local source `/app/tenants/bad!dir` — whose derived id
fails validation — returns `null` and leaves the registry untouched. -/
theorem c3_witness :
    SecurityValidator.validateTenantId "tenant_1" = .ok "tenant_1" ∧
    isErr (SecurityValidator.validateTenantId "bad id!") = true ∧
    selectedAdapter envC3 stC3.pr "/app/tenants/bad!dir" = some .localT ∧
    (TenantManager.loadTenant envC3 stC3 "/app/tenants/bad!dir" none).1 = none ∧
    ((TenantManager.loadTenant envC3 stC3 "/app/tenants/bad!dir" none).2).reg = stC3.reg := by
  have h1 := (c3_validate_tenant_id "tenant_1").1.mpr (by decide)
  have h2 := (c3_validate_tenant_id "bad id!").2.1 (by decide)
  have h3 := (c3_validate_tenant_id "x").2.2 envC3 stC3 "/app/tenants/bad!dir" none .localT
    (by decide) (by decide)
  exact ⟨h1, h2, by decide, h3.1, h3.2⟩

/-- C9: `resolvePath` returns every absolute input unchanged for every
resolver state and options value — the traversal rejection applies only
to relative inputs, and on absolute inputs both branches of the
trusted-root check return the same value. -/
theorem c9_absolute_passthrough (pr : PathResolver) (p : String) (allowTrusted : Bool)
    (h : isAbsolute p = true) :
    pr.resolvePath p allowTrusted = .ok p := by
  unfold PathResolver.resolvePath
  simp [h]

/-- Witness for C9: an absolute path far outside the base root and the
trusted set passes through unchanged with either options value. -/
theorem c9_witness :
    isAbsolute "/etc/passwd" = true ∧
    PathResolver.resolvePath { baseDir := "/srv/app", trustedPackagePaths := ["/srv/pkg"] }
      "/etc/passwd" false = .ok "/etc/passwd" ∧
    PathResolver.resolvePath { baseDir := "/srv/app", trustedPackagePaths := ["/srv/pkg"] }
      "/etc/passwd" true = .ok "/etc/passwd" :=
  ⟨by decide,
    c9_absolute_passthrough _ _ _ (by decide),
    c9_absolute_passthrough _ _ _ (by decide)⟩

/-- What the strategy does with one candidate: the validated id, or the
fixed default when validation throws into the surrounding catch. -/
def jsValidate (s : String) : String :=
  match SecurityValidator.validateTenantId s with
  | .ok v => v
  | .error _ => "default-tenant"

/-- C8: the composite strategy takes the first candidate in the fixed
order — hostname subdomain, then the first URL path segment unless it
is the reserved `api` or `health`, then a truthy `x-tenant-id` header —
validating each through the identifier validator; with no candidate it
returns the fixed `"default-tenant"`, and in particular a request to
`/health` alone yields the default. -/
theorem c8_multi_source_strategy :
    ∀ (request : Request),
      (∀ sub, request.hostname.bind hostnameSub = some sub →
        MultiSourceTenantStrategy.extractTenantId request = jsValidate sub) ∧
      (request.hostname.bind hostnameSub = none →
        ∀ seg, request.url.bind urlSeg = some seg → seg ≠ "api" → seg ≠ "health" →
          MultiSourceTenantStrategy.extractTenantId request = jsValidate seg) ∧
      (request.hostname.bind hostnameSub = none →
        (request.url.bind urlSeg = none ∨ request.url.bind urlSeg = some "api" ∨
          request.url.bind urlSeg = some "health") →
        (∀ hv, request.xTenantId = some hv → hv ≠ "" →
          MultiSourceTenantStrategy.extractTenantId request = jsValidate hv) ∧
        ((request.xTenantId = none ∨ request.xTenantId = some "") →
          MultiSourceTenantStrategy.extractTenantId request = "default-tenant")) ∧
      MultiSourceTenantStrategy.extractTenantId
        { hostname := none, url := some "/health", xTenantId := none } = "default-tenant" := by
  intro request
  refine ⟨?_, ?_, ?_, by decide⟩
  · intro sub hh
    unfold MultiSourceTenantStrategy.extractTenantId jsValidate
    rw [hh]
  · intro hnone seg hseg hapi hhealth
    unfold MultiSourceTenantStrategy.extractTenantId jsValidate
    rw [hnone, hseg]
    rcases he : SecurityValidator.validateTenantId seg with e | v <;> simp [he, hapi, hhealth]
  · intro hnone hres
    have hhead : MultiSourceTenantStrategy.extractTenantId request = extractHeaderStep request := by
      unfold MultiSourceTenantStrategy.extractTenantId
      rw [hnone]
      rcases hres with h | h | h <;> rw [h] <;> simp
    constructor
    · intro hv hxv hne
      rw [hhead]
      unfold extractHeaderStep jsValidate
      rw [hxv]
      rcases he : SecurityValidator.validateTenantId hv with e | v <;> simp [he, hne]
    · intro hx
      rw [hhead]
      unfold extractHeaderStep
      rcases hx with h | h <;> simp [h]

/-- Witness for C8: each sub-strategy fires on a concrete request in
order — subdomain, then path segment, then header behind a reserved
`/health` path — and a bare `/health` request yields the default. -/
theorem c8_witness :
    MultiSourceTenantStrategy.extractTenantId
      { hostname := some "acme.example.com", url := some "/other", xTenantId := some "hdr" } =
        jsValidate "acme" ∧
    MultiSourceTenantStrategy.extractTenantId
      { hostname := none, url := some "/shop2/items", xTenantId := none } = jsValidate "shop2" ∧
    MultiSourceTenantStrategy.extractTenantId
      { hostname := none, url := some "/health", xTenantId := some "hdrtenant" } =
        jsValidate "hdrtenant" ∧
    MultiSourceTenantStrategy.extractTenantId
      { hostname := none, url := some "/health", xTenantId := none } = "default-tenant" := by
  refine ⟨?_, ?_, ?_, ?_⟩
  · exact (c8_multi_source_strategy _).1 "acme" (by decide)
  · exact (c8_multi_source_strategy _).2.1 (by decide) "shop2" (by decide) (by decide) (by decide)
  · exact ((c8_multi_source_strategy _).2.2.1 (by decide) (by decide)).1 "hdrtenant" (by decide)
      (by decide)
  · exact ((c8_multi_source_strategy _).2.2.1 (by decide) (by decide)).2 (by decide)

/-- C10: when an earlier sub-strategy produces a candidate that fails
validation, the throw lands in the catch and the strategy returns the
default immediately — no later sub-strategy (URL segment or header) is
consulted, whatever the rest of the request holds. -/
theorem c10_invalid_candidate_default :
    ∀ (request : Request) (sub : String),
      request.hostname.bind hostnameSub = some sub →
      isErr (SecurityValidator.validateTenantId sub) = true →
      MultiSourceTenantStrategy.extractTenantId request = "default-tenant" := by
  intro request sub hh hv
  unfold MultiSourceTenantStrategy.extractTenantId
  rw [hh]
  rcases he : SecurityValidator.validateTenantId sub with e | v
  · simp [he]
  · rw [he] at hv
    simp [isErr] at hv

/-- C5: whenever the configuration merged by the selected adapter has
`active` equal to `false`, the tenant load returns `null` as a normal
result — the skip happens before any context is built — and no registry
entry is added under any id. -/
theorem c5_inactive_skip :
    ∀ (env : Env) (st : MState) (source : String) (cid : Option String) (a : AdapterTag),
      selectedAdapter env st.pr source = some a →
      jGet (mergedCfg env (resolverAfterProbe env st.pr source) a source cid) "active" =
        some (.bool false) →
      (TenantManager.loadTenant env st source cid).1 = none ∧
      ((TenantManager.loadTenant env st source cid).2).reg = st.reg := by
  intro env st source cid a hsel hact
  have hfalse : jTruthy (jGetD
      (mergedCfg env (resolverAfterProbe env st.pr source) a source cid) "active") = false := by
    unfold jGetD
    rw [hact]
    rfl
  have hb := buildFromConfig_none_of_inactive env a (effTenantId a source cid)
    (mergedCfg env (resolverAfterProbe env st.pr source) a source cid) hfalse
  have hdec := loadTenant_decomp env st source cid a hsel
  constructor
  · rw [hdec]
    simp [hb]
  · apply loadTenant_none_reg
    rw [hdec]
    simp [hb]

/-- Environment for the C5 witness: a local tenant directory with one
config file that sets `active` to `false`. -/
def envC5 : Env :=
  { fs :=
      { access := fun p => p = "/app/tenants/t1" ∨ p = "/app/tenants/t1/config.json"
        listing := fun d => if d = "/app/tenants/t1" then some ["config.json"] else none
        fileVal := fun f =>
          if f = "/app/tenants/t1/config.json" then some (.obj [("active", .bool false)])
          else none }
    modules := fun _ => none
    mainExport := fun _ => none
    loadRes := fun _ _ _ => .ok [] [] [] [] }

/-- Manager state for the C5 witness. -/
def stC5 : MState :=
  { pr := { baseDir := "/app", trustedPackagePaths := [] }
    reg := { tenants := [("a", sampleCtx)], maxTenants := 50 } }

/-- Witness for C5: the local source `/app/tenants/t1` merges to
`active: false`, and loading it yields `null` with the registry exactly
as before. -/
theorem c5_witness :
    selectedAdapter envC5 stC5.pr "/app/tenants/t1" = some .localT ∧
    jGet (mergedCfg envC5 (resolverAfterProbe envC5 stC5.pr "/app/tenants/t1") .localT
      "/app/tenants/t1" none) "active" = some (.bool false) ∧
    (TenantManager.loadTenant envC5 stC5 "/app/tenants/t1" none).1 = none ∧
    ((TenantManager.loadTenant envC5 stC5 "/app/tenants/t1" none).2).reg = stC5.reg := by
  have hact : jGet (mergedCfg envC5 (resolverAfterProbe envC5 stC5.pr "/app/tenants/t1") .localT
      "/app/tenants/t1" none) "active" = some (.bool false) := by
    have h1 : mergedCfg envC5 (resolverAfterProbe envC5 stC5.pr "/app/tenants/t1") .localT
        "/app/tenants/t1" none =
        dmerge (mkDefaults "t1" "/app/tenants/t1") (.obj [("active", .bool false)]) := rfl
    rw [h1]
    simp [dmerge, dmergeFields, mkDefaults, jGet, List.find?, List.lookup]
  have h := c5_inactive_skip envC5 stC5 "/app/tenants/t1" none .localT (by decide) hact
  exact ⟨by decide, hact, h.1, h.2⟩

/-- C4 (amended): the precedence explicit id, else prefix-stripped
package name, else source basename determines only the DEFAULT identity
placed into the config defaults; the built context's id is the
validated value of `config.name || tenantId` over the merged
configuration — so a merged truthy `name` (which the NPM adapter always
writes, even when an explicit id was supplied) overrides the precedence
value. -/
theorem c4_amended_identity :
    ∀ (env : Env) (pr : PathResolver) (source : String) (a : AdapterTag)
      (cid : Option String) (t : TenantCtx),
      (TenantFactory.buildTenant env pr source a cid).1 = some t →
      validateTenantIdJ (jsOrJ (jGetD (mergedCfg env pr a source cid) "name")
        (.str (effTenantId a source cid))) = .ok t.id := by
  intro env pr source a cid t h
  rw [buildTenant_eq] at h
  exact buildFromConfig_some_id env a (effTenantId a source cid)
    (mergedCfg env pr a source cid) t h

/-- Environment for the C4 counterexample and witness: the package
`fastify-multitenant-acme` resolves with root `/pkg/acme`, exports a
plain object with no `NAME` and no `config`, and has no config files;
no local directory exists. -/
def envC4 : Env :=
  { fs :=
      { access := fun _ => false
        listing := fun _ => some []
        fileVal := fun _ => none }
    modules := fun s =>
      if s = "fastify-multitenant-acme" then some { rootDir := "/pkg/acme" } else none
    mainExport := fun s => if s = "fastify-multitenant-acme" then some {} else none
    loadRes := fun _ _ _ => .ok [] [] [] [] }

/-- Resolver for the C4 counterexample. -/
def prC4 : PathResolver := { baseDir := "/app", trustedPackagePaths := [] }

/-- The configuration the NPM adapter produces for the C4 input: note
`name` is the prefix-stripped package name even though the explicit id
`custom` was supplied. -/
def cfgC4 : JVal :=
  .obj [("id", .str "custom"), ("name", .str "acme"), ("active", .bool true),
        ("source", .str "fastify-multitenant-acme"), ("path", .str "/pkg/acme"),
        ("packageName", .str "fastify-multitenant-acme"), ("packageJson", .obj []),
        ("isTrustedPath", .bool true)]

/-- The context the C4 build produces. -/
def ctxC4 : TenantCtx := { id := "acme", config := cfgC4, type := .npmT, active := true }

/-- The final package-config merge of the C4 build is with an empty
object and leaves the adapter's configuration unchanged. -/
theorem c4_dmerge_eval : dmerge cfgC4 (.obj []) = cfgC4 := by
  simp [cfgC4, dmerge, dmergeFields]

/-- Counterexample for C4: the precedence puts the explicitly supplied
id `custom` first, yet building the package source
`fastify-multitenant-acme` with that explicit id succeeds with a
context whose id is the package-derived `acme`, not `custom`. -/
theorem c4_counterexample :
    effTenantId .npmT "fastify-multitenant-acme" (some "custom") = "custom" ∧
    (TenantFactory.buildTenant envC4 prC4 "fastify-multitenant-acme" .npmT
      (some "custom")).1 = some ctxC4 ∧
    ctxC4.id = "acme" ∧ ("acme" : String) ≠ "custom" := by
  have hcfg : mergedCfg envC4 prC4 .npmT "fastify-multitenant-acme" (some "custom") =
      dmerge cfgC4 (.obj []) := rfl
  refine ⟨rfl, ?_, rfl, by decide⟩
  rw [buildTenant_eq, hcfg, c4_dmerge_eval]
  rfl

/-- Witness for C4 (amended) at the counterexample input: the build
yields the context with id `acme`, which is exactly the validated
`config.name || tenantId` of the merged configuration. -/
theorem c4_witness :
    (TenantFactory.buildTenant envC4 prC4 "fastify-multitenant-acme" .npmT
      (some "custom")).1 = some ctxC4 ∧
    validateTenantIdJ (jsOrJ
      (jGetD (mergedCfg envC4 prC4 .npmT "fastify-multitenant-acme" (some "custom")) "name")
      (.str (effTenantId .npmT "fastify-multitenant-acme" (some "custom")))) = .ok ctxC4.id := by
  have hcfg : mergedCfg envC4 prC4 .npmT "fastify-multitenant-acme" (some "custom") =
      dmerge cfgC4 (.obj []) := rfl
  have hbuild : (TenantFactory.buildTenant envC4 prC4 "fastify-multitenant-acme" .npmT
      (some "custom")).1 = some ctxC4 := by
    rw [buildTenant_eq, hcfg, c4_dmerge_eval]
    rfl
  exact ⟨hbuild,
    c4_amended_identity envC4 prC4 "fastify-multitenant-acme" .npmT (some "custom") ctxC4
      hbuild⟩

/-- C6 (amended): `reloadTenant` throws TenantNotFound exactly when the
id is absent; otherwise it unregisters the old entry and reloads from
the recorded `config.source` with the old id as the explicit id; when
the rebuild succeeds, the registry maps the REBUILT context's id — the
validated merged `name`, which need not equal the original id — to the
replacement. -/
theorem c6_amended_reload :
    ∀ (env : Env) (st : MState) (tenantId : String),
      (isErr (TenantManager.reloadTenant env st tenantId) = true ↔
        st.reg.getTenant tenantId = none) ∧
      (∀ old, st.reg.getTenant tenantId = some old →
        TenantManager.reloadTenant env st tenantId =
          .ok (TenantManager.loadTenant env
            { pr := st.pr, reg := (st.reg.unregister tenantId).2 }
            (jStr (jGetD old.config "source")) (some tenantId))) ∧
      (∀ (t : TenantCtx) (st2 : MState),
        TenantManager.reloadTenant env st tenantId = .ok (some t, st2) →
        mapGet st2.reg.tenants t.id = some t) := by
  intro env st tenantId
  refine ⟨?_, ?_, ?_⟩
  · unfold TenantManager.reloadTenant
    rcases hg : st.reg.getTenant tenantId with _ | old
    · simp [isErr]
    · simp [isErr]
  · intro old hold
    unfold TenantManager.reloadTenant
    rw [hold]
  · intro t st2 h
    unfold TenantManager.reloadTenant at h
    rcases hg : st.reg.getTenant tenantId with _ | old
    · rw [hg] at h
      cases h
    · rw [hg] at h
      injection h with h
      exact loadTenant_some_lookup env _ _ _ t st2 h

/-- The previously registered tenant for the C6 scenario: id `acme`,
recorded source `/app/tenants/acme`. -/
def ctxOldC6 : TenantCtx :=
  { id := "acme", config := .obj [("source", .str "/app/tenants/acme")], type := .localT,
    active := true }

/-- Environment for the C6 scenario: the recorded source still exists,
but its config file now sets `name` to `renamed`. -/
def envC6 : Env :=
  { fs :=
      { access := fun p => p = "/app/tenants/acme"
        listing := fun d => if d = "/app/tenants/acme" then some ["config.json"] else none
        fileVal := fun f =>
          if f = "/app/tenants/acme/config.json" then some (.obj [("name", .str "renamed")])
          else none }
    modules := fun _ => none
    mainExport := fun _ => none
    loadRes := fun _ _ _ => .ok [] [] [] [] }

/-- Resolver for the C6 scenario. -/
def prC6 : PathResolver := { baseDir := "/app", trustedPackagePaths := [] }

/-- Manager state for the C6 scenario: `acme` registered, capacity
50. -/
def stC6 : MState :=
  { pr := prC6, reg := { tenants := [("acme", ctxOldC6)], maxTenants := 50 } }

/-- The state after the C6 reload has unregistered the old entry. -/
def stMidC6 : MState :=
  { pr := prC6, reg := { tenants := [], maxTenants := 50 } }

/-- The configuration merged during the C6 rebuild: `name` is
overridden to `renamed`. -/
def cfgC6 : JVal :=
  .obj [("id", .str "acme"), ("name", .str "renamed"), ("active", .bool true),
        ("source", .str "/app/tenants/acme")]

/-- The rebuilt context of the C6 reload: its id is the overridden
`renamed`, not the original `acme`. -/
def ctxNewC6 : TenantCtx := { id := "renamed", config := cfgC6, type := .localT, active := true }

/-- The registry after the C6 reload: keyed by `renamed`. -/
def regNewC6 : TenantRegistry := { tenants := [("renamed", ctxNewC6)], maxTenants := 50 }

/-- Deep merge of the C6 defaults with the renaming config file. -/
theorem c6_dmerge_eval :
    dmerge (mkDefaults "acme" "/app/tenants/acme") (.obj [("name", .str "renamed")]) = cfgC6 := by
  simp [mkDefaults, cfgC6, dmerge, dmergeFields, List.lookup, List.filter]

/-- Evaluation of the C6 rebuild through `loadTenant`. -/
theorem c6_load_eval :
    TenantManager.loadTenant envC6 stMidC6 "/app/tenants/acme" (some "acme") =
      (some ctxNewC6, { pr := prC6, reg := regNewC6 }) := by
  have hsel : selectedAdapter envC6 stMidC6.pr "/app/tenants/acme" = some .localT := rfl
  rw [loadTenant_decomp envC6 stMidC6 "/app/tenants/acme" (some "acme") .localT hsel]
  have hcfg : mergedCfg envC6 (resolverAfterProbe envC6 stMidC6.pr "/app/tenants/acme")
      .localT "/app/tenants/acme" (some "acme") =
      dmerge (mkDefaults "acme" "/app/tenants/acme") (.obj [("name", .str "renamed")]) := rfl
  have hb : buildFromConfig envC6 .localT (effTenantId .localT "/app/tenants/acme" (some "acme"))
      (mergedCfg envC6 (resolverAfterProbe envC6 stMidC6.pr "/app/tenants/acme") .localT
        "/app/tenants/acme" (some "acme")) = some ctxNewC6 := by
    rw [hcfg, c6_dmerge_eval]
    rfl
  rw [hb]
  rfl

/-- Evaluation of the whole C6 reload. -/
theorem c6_reload_eval :
    TenantManager.reloadTenant envC6 stC6 "acme" =
      .ok (some ctxNewC6, { pr := prC6, reg := regNewC6 }) := by
  have hget : stC6.reg.getTenant "acme" = some ctxOldC6 := rfl
  unfold TenantManager.reloadTenant
  rw [hget]
  have harg : TenantManager.loadTenant envC6
      { pr := stC6.pr, reg := (stC6.reg.unregister "acme").2 }
      (jStr (jGetD ctxOldC6.config "source")) (some "acme") =
      TenantManager.loadTenant envC6 stMidC6 "/app/tenants/acme" (some "acme") := rfl
  show Except.ok (TenantManager.loadTenant envC6
      { pr := stC6.pr, reg := (stC6.reg.unregister "acme").2 }
      (jStr (jGetD ctxOldC6.config "source")) (some "acme")) =
    Except.ok (some ctxNewC6, { pr := prC6, reg := regNewC6 })
  rw [harg, c6_load_eval]

/-- Counterexample for C6: reloading `acme` succeeds, but the rebuilt
context's id is the overridden `renamed`, and the post-reload registry
no longer maps `acme` to anything — the claim that the rebuilt context
carries the same id and that the registry maps the old id to the
replacement fails. -/
theorem c6_counterexample :
    TenantManager.reloadTenant envC6 stC6 "acme" =
      .ok (some ctxNewC6, { pr := prC6, reg := regNewC6 }) ∧
    ctxNewC6.id = "renamed" ∧
    mapGet regNewC6.tenants "acme" = none ∧
    ("renamed" : String) ≠ "acme" :=
  ⟨c6_reload_eval, rfl, rfl, by decide⟩

/-- Witness for C6 (amended) at the concrete scenario: the registered
`acme` reloads through the recorded source, a missing id throws, and
after the reload the registry maps the rebuilt id to the replacement
context. -/
theorem c6_witness :
    stC6.reg.getTenant "acme" = some ctxOldC6 ∧
    TenantManager.reloadTenant envC6 stC6 "acme" =
      .ok (TenantManager.loadTenant envC6
        { pr := stC6.pr, reg := (stC6.reg.unregister "acme").2 }
        (jStr (jGetD ctxOldC6.config "source")) (some "acme")) ∧
    isErr (TenantManager.reloadTenant envC6 stC6 "missing") = true ∧
    mapGet regNewC6.tenants ctxNewC6.id = some ctxNewC6 := by
  refine ⟨rfl, (c6_amended_reload envC6 stC6 "acme").2.1 ctxOldC6 rfl, ?_, ?_⟩
  · exact (c6_amended_reload envC6 stC6 "missing").1.mpr rfl
  · exact (c6_amended_reload envC6 stC6 "acme").2.2 ctxNewC6 { pr := prC6, reg := regNewC6 }
      c6_reload_eval

theorem listLt_append_left (c : List Char) {a b : List Char} (h : a < b) :
    (c ++ a) < (c ++ b) := by
  induction c with
  | nil => simpa using h
  | cons x xs ih =>
    simp only [List.cons_append]
    exact List.Lex.cons ih

theorem strLt_append_left (s : String) {a b : String} (h : a < b) : s ++ a < s ++ b := by
  rw [String.lt_iff_toList_lt] at h ⊢
  simpa only [String.toList, String.data_append] using
    listLt_append_left s.data (by simpa only [String.toList] using h)

theorem configFileNames_sorted : configFileNames.Pairwise (fun a b => a < b) := by
  have h1 : ("config.js" : String) < "config.json" := String.lt_iff_toList_lt.mpr (by decide)
  have h2 : ("config.js" : String) < "config.mjs" := String.lt_iff_toList_lt.mpr (by decide)
  have h3 : ("config.json" : String) < "config.mjs" := String.lt_iff_toList_lt.mpr (by decide)
  unfold configFileNames
  refine List.Pairwise.cons ?_ (List.Pairwise.cons ?_
    (List.Pairwise.cons ?_ List.Pairwise.nil))
  · intro b hb
    simp only [List.mem_cons, List.not_mem_nil, or_false] at hb
    rcases hb with rfl | rfl
    · exact h1
    · exact h2
  · intro b hb
    simp only [List.mem_cons, List.not_mem_nil, or_false] at hb
    rcases hb with rfl
    exact h3
  · intro b hb
    simp at hb

theorem fastGlobConfig_sorted (fs : FileSys) (dir : String) :
    (fastGlobConfig fs dir).Pairwise (fun a b => a < b) := by
  unfold fastGlobConfig
  rcases fs.listing dir with _ | entries
  · exact List.Pairwise.nil
  · exact List.Pairwise.map _ (fun a b hab => strLt_append_left (dir ++ "/") hab)
      (List.Pairwise.filter _ configFileNames_sorted)

theorem loadConfig_ok (fs : FileSys) (pr : PathResolver) (configPath : String)
    (defaults : JVal) (trusted : Bool) (absolutePath : String)
    (hap : resolveCfgPath pr configPath trusted = .ok absolutePath) :
    ResourceLoader.loadConfig fs pr configPath defaults trusted =
      match fastGlobConfig fs absolutePath with
      | [] => defaults
      | configFiles =>
        configFiles.foldl
          (fun config file =>
            match fs.fileVal file with
            | some v => dmerge config v
            | none => config) defaults := by
  unfold ResourceLoader.loadConfig
  rw [hap]

theorem foldl_skip_filterMap (fs : FileSys) (l : List String) (init : JVal) :
    l.foldl (fun config file =>
      match fs.fileVal file with
      | some v => dmerge config v
      | none => config) init = (l.filterMap fs.fileVal).foldl dmerge init := by
  induction l generalizing init with
  | nil => rfl
  | cons f rest ih =>
    rcases hv : fs.fileVal f with _ | v
    · simp [List.filterMap_cons, hv, ih]
    · simp [List.filterMap_cons, hv, ih]

/-- C7: `loadConfig` reads exactly the directory's `config.js`,
`config.json`, `config.mjs` files in deterministic path-sorted order
and deep-merges the ones that parse into the defaults in that order —
a file that fails to parse or import is skipped without aborting the
rest; a missing directory, a directory without config files, or a path
that fails to resolve all return the defaults unchanged. -/
theorem c7_load_config :
    ∀ (fs : FileSys) (pr : PathResolver) (configPath : String) (defaults : JVal)
      (trusted : Bool),
      (∀ e, resolveCfgPath pr configPath trusted = .error e →
        ResourceLoader.loadConfig fs pr configPath defaults trusted = defaults) ∧
      (∀ absolutePath, resolveCfgPath pr configPath trusted = .ok absolutePath →
        ResourceLoader.loadConfig fs pr configPath defaults trusted =
          ((fastGlobConfig fs absolutePath).filterMap fs.fileVal).foldl dmerge defaults ∧
        (fastGlobConfig fs absolutePath).Pairwise (fun a b => a < b) ∧
        (fs.listing absolutePath = none →
          ResourceLoader.loadConfig fs pr configPath defaults trusted = defaults) ∧
        (fastGlobConfig fs absolutePath = [] →
          ResourceLoader.loadConfig fs pr configPath defaults trusted = defaults)) := by
  intro fs pr configPath defaults trusted
  constructor
  · intro e he
    unfold ResourceLoader.loadConfig
    rw [he]
  · intro absolutePath hap
    have hmain : ResourceLoader.loadConfig fs pr configPath defaults trusted =
        ((fastGlobConfig fs absolutePath).filterMap fs.fileVal).foldl dmerge defaults := by
      rcases hg : fastGlobConfig fs absolutePath with _ | ⟨f, rest⟩
      · rw [loadConfig_ok fs pr configPath defaults trusted absolutePath hap, hg]
        rfl
      · rw [loadConfig_ok fs pr configPath defaults trusted absolutePath hap, hg]
        exact foldl_skip_filterMap fs (f :: rest) defaults
    refine ⟨hmain, fastGlobConfig_sorted fs absolutePath, ?_, ?_⟩
    · intro hnone
      have hempty : fastGlobConfig fs absolutePath = [] := by
        unfold fastGlobConfig
        rw [hnone]
      rw [loadConfig_ok fs pr configPath defaults trusted absolutePath hap, hempty]
    · intro hempty
      rw [loadConfig_ok fs pr configPath defaults trusted absolutePath hap, hempty]

/-- Filesystem for the C7 witness: the directory `/cfg` holds a
well-formed `config.json`, a `config.js` that fails to load, and an
unrelated file; nothing else exists. -/
def fsC7 : FileSys :=
  { access := fun _ => false
    listing := fun d => if d = "/cfg" then some ["config.json", "config.js", "other.txt"] else none
    fileVal := fun f => if f = "/cfg/config.json" then some (.obj [("name", .str "over")]) else none }

/-- Resolver for the C7 witness. -/
def prC7 : PathResolver := { baseDir := "/app", trustedPackagePaths := [] }

/-- The single deep merge the C7 witness performs. -/
theorem c7_dmerge_eval :
    dmerge (.obj [("name", .str "base"), ("active", .bool true)])
      (.obj [("name", .str "over")]) =
      .obj [("name", .str "over"), ("active", .bool true)] := by
  simp [dmerge, dmergeFields, List.lookup, List.filter]

/-- Witness for C7: in `/cfg` the bad `config.js` is skipped and the
good `config.json` merges over the defaults, the glob output is
path-sorted, and a missing directory returns the defaults unchanged. -/
theorem c7_witness :
    resolveCfgPath prC7 "/cfg" true = .ok "/cfg" ∧
    fastGlobConfig fsC7 "/cfg" = ["/cfg/config.js", "/cfg/config.json"] ∧
    (fastGlobConfig fsC7 "/cfg").Pairwise (fun a b => a < b) ∧
    ResourceLoader.loadConfig fsC7 prC7 "/cfg"
      (.obj [("name", .str "base"), ("active", .bool true)]) true =
      .obj [("name", .str "over"), ("active", .bool true)] ∧
    fsC7.listing "/missing" = none ∧
    ResourceLoader.loadConfig fsC7 prC7 "/missing"
      (.obj [("name", .str "base"), ("active", .bool true)]) true =
      .obj [("name", .str "base"), ("active", .bool true)] := by
  have h := (c7_load_config fsC7 prC7 "/cfg"
    (.obj [("name", .str "base"), ("active", .bool true)]) true).2 "/cfg" rfl
  have hmiss := (c7_load_config fsC7 prC7 "/missing"
    (.obj [("name", .str "base"), ("active", .bool true)]) true).2 "/missing" rfl
  refine ⟨rfl, rfl, h.2.1, ?_, rfl, hmiss.2.2.1 rfl⟩
  rw [h.1]
  rw [show ((fastGlobConfig fsC7 "/cfg").filterMap fsC7.fileVal) =
    [.obj [("name", .str "over")]] from rfl]
  exact c7_dmerge_eval

/-- Witness for C10: a hostname whose subdomain holds an invalid
character yields the default even though the same request carries a
valid `x-tenant-id` header. -/
theorem c10_witness :
    (Request.mk (some "bad!sub.example.com") none (some "validtenant")).hostname.bind
        hostnameSub = some "bad!sub" ∧
    isErr (SecurityValidator.validateTenantId "bad!sub") = true ∧
    SecurityValidator.validateTenantId "validtenant" = .ok "validtenant" ∧
    MultiSourceTenantStrategy.extractTenantId
      (Request.mk (some "bad!sub.example.com") none (some "validtenant")) = "default-tenant" :=
  ⟨by decide, by decide, rfl,
    c10_invalid_candidate_default _ "bad!sub" (by decide) (by decide)⟩
